import Mathlib

/-!
Verification development for the Orluncoin backend (a minimal proof-of-work
cryptocurrency node written in TypeScript).  The TypeScript sources are
shallowly embedded below: pure functions become Lean functions, the mutable
module state (blockchain, UTxO set, transaction pool) is passed explicitly,
JavaScript exceptions become `Option`/`Except` results, and the wall clock
(`Date.now()`) is an explicit parameter.  JavaScript numbers are modelled as
`Int` (all values handled by the program are integers); the time quotients in
the difficulty adjustment are taken in `ℚ`, matching real-number division.

The external crypto-js SHA-256 is embedded as a genuine SHA-256
implementation over byte lists, so hard-coded digests in the source (the
genesis transaction id and genesis hash) are checked against the real hash.
The external elliptic-curve library (secp256k1 sign/verify, public-key
derivation) is kept abstract: functions that use it take the verifier /
signer / key-derivation as explicit function parameters.
-/

/-! ## SHA-256 (embedding of crypto-js `sha256(...).toString()`)

Strings are hashed as their UTF-8 bytes; every string hashed by this program
is ASCII, for which the code-point list equals the byte list. -/

set_option maxRecDepth 100000

set_option maxHeartbeats 2000000

def M32 : Nat := 4294967296

def add32 (a b : Nat) : Nat := (a + b) % M32

def rotr32 (n x : Nat) : Nat := ((x >>> n) ||| (x <<< (32 - n))) &&& 0xFFFFFFFF

def sSig0 (x : Nat) : Nat := (rotr32 7 x) ^^^ (rotr32 18 x) ^^^ (x >>> 3)

def sSig1 (x : Nat) : Nat := (rotr32 17 x) ^^^ (rotr32 19 x) ^^^ (x >>> 10)

def bSig0 (x : Nat) : Nat := (rotr32 2 x) ^^^ (rotr32 13 x) ^^^ (rotr32 22 x)

def bSig1 (x : Nat) : Nat := (rotr32 6 x) ^^^ (rotr32 11 x) ^^^ (rotr32 25 x)

def chF (x y z : Nat) : Nat := (x &&& y) ^^^ ((x ^^^ 0xFFFFFFFF) &&& z)

def majF (x y z : Nat) : Nat := (x &&& y) ^^^ (x &&& z) ^^^ (y &&& z)

/-- The 64 SHA-256 round constants (the fractional parts of the cube roots
of the first 64 primes), written in decimal. -/
def sha256K : List Nat := [
  1116352408, 1899447441, 3049323471, 3921009573, 961987163, 1508970993,
  2453635748, 2870763221, 3624381080, 310598401, 607225278, 1426881987,
  1925078388, 2162078206, 2614888103, 3248222580, 3835390401, 4022224774,
  264347078, 604807628, 770255983, 1249150122, 1555081692, 1996064986,
  2554220882, 2821834349, 2952996808, 3210313671, 3336571891, 3584528711,
  113926993, 338241895, 666307205, 773529912, 1294757372, 1396182291,
  1695183700, 1986661051, 2177026350, 2456956037, 2730485921, 2820302411,
  3259730800, 3345764771, 3516065817, 3600352804, 4094571909, 275423344,
  430227734, 506948616, 659060556, 883997877, 958139571, 1322822218,
  1537002063, 1747873779, 1955562222, 2024104815, 2227730452, 2361852424,
  2428436474, 2756734187, 3204031479, 3329325298]

def strBytes (s : String) : List Nat := s.data.map Char.toNat

def padBytes (bytes : List Nat) : List Nat :=
  let len := bytes.length
  let k := (64 + 56 - ((len + 1) % 64)) % 64
  let bitLen := 8 * len
  bytes ++ [0x80] ++ List.replicate k 0 ++
    [(bitLen >>> 56) &&& 255, (bitLen >>> 48) &&& 255, (bitLen >>> 40) &&& 255,
     (bitLen >>> 32) &&& 255, (bitLen >>> 24) &&& 255, (bitLen >>> 16) &&& 255,
     (bitLen >>> 8) &&& 255, bitLen &&& 255]

def bytesToWords : List Nat → List Nat
  | b0 :: b1 :: b2 :: b3 :: rest =>
      ((((b0 <<< 8) ||| b1) <<< 8 ||| b2) <<< 8 ||| b3) :: bytesToWords rest
  | _ => []

def extendSchedule :
    Nat →
    Nat × Nat × Nat × Nat × Nat × Nat × Nat × Nat ×
      Nat × Nat × Nat × Nat × Nat × Nat × Nat × Nat →
    List Nat
  | 0, _ => []
  | n + 1, (v0, v1, v2, v3, v4, v5, v6, v7, v8, v9, v10, v11, v12, v13, v14, v15) =>
      let w := add32 (add32 (sSig1 v14) v9) (add32 (sSig0 v1) v0)
      w :: extendSchedule n (v1, v2, v3, v4, v5, v6, v7, v8, v9, v10, v11, v12, v13, v14, v15, w)

def compressRounds :
    List Nat → List Nat →
    Nat × Nat × Nat × Nat × Nat × Nat × Nat × Nat →
    Nat × Nat × Nat × Nat × Nat × Nat × Nat × Nat
  | k :: ks, w :: ws, (a, b, c, d, e, f, g, h) =>
      let t1 := add32 h (add32 (bSig1 e) (add32 (chF e f g) (add32 k w)))
      let t2 := add32 (bSig0 a) (majF a b c)
      compressRounds ks ws (add32 t1 t2, a, b, c, add32 d t1, e, f, g)
  | _, _, st => st

def compressBlock (h : List Nat) (ws : List Nat) : List Nat :=
  match h, ws with
  | [h0, h1, h2, h3, h4, h5, h6, h7],
    [w0, w1, w2, w3, w4, w5, w6, w7, w8, w9, w10, w11, w12, w13, w14, w15] =>
      let wAll := ws ++ extendSchedule 48
        (w0, w1, w2, w3, w4, w5, w6, w7, w8, w9, w10, w11, w12, w13, w14, w15)
      match compressRounds sha256K wAll (h0, h1, h2, h3, h4, h5, h6, h7) with
      | (a, b, c, d, e, f, g, hh) =>
          [add32 h0 a, add32 h1 b, add32 h2 c, add32 h3 d,
           add32 h4 e, add32 h5 f, add32 h6 g, add32 h7 hh]
  | _, _ => h

def sha256Blocks (h : List Nat) : List Nat → List Nat
  | w0 :: w1 :: w2 :: w3 :: w4 :: w5 :: w6 :: w7 ::
    w8 :: w9 :: w10 :: w11 :: w12 :: w13 :: w14 :: w15 :: rest =>
      sha256Blocks (compressBlock h [w0, w1, w2, w3, w4, w5, w6, w7,
        w8, w9, w10, w11, w12, w13, w14, w15]) rest
  | _ => h

def hexChar (n : Nat) : Char := if n < 10 then Char.ofNat (48 + n) else Char.ofNat (87 + n)

def wordToHex (x : Nat) : String :=
  String.mk ([(x >>> 28) &&& 15, (x >>> 24) &&& 15, (x >>> 20) &&& 15, (x >>> 16) &&& 15,
    (x >>> 12) &&& 15, (x >>> 8) &&& 15, (x >>> 4) &&& 15, x &&& 15].map hexChar)

def sha256Init : List Nat :=
  [0x6a09e667, 0xbb67ae85, 0x3c6ef372, 0xa54ff53a, 0x510e527f, 0x9b05688c, 0x1f83d9ab, 0x5be0cd19]

def sha256Hex (s : String) : String :=
  String.join ((sha256Blocks sha256Init (bytesToWords (padBytes (strBytes s)))).map wordToHex)

theorem sha256Hex_abc :
    sha256Hex "abc" = "ba7816bf8f01cfea414140de5dae2223b00361a396177a9cb410ff61f20015ad" := by
  decide

/-! ## Data model (src/transaction.ts, src/block.ts)

JavaScript `number` fields are modelled as `Int`; `${n}` interpolation of an
integer number agrees with `toString (n : Int)`. -/

deriving instance DecidableEq for Except

/-- JavaScript `String.prototype.startsWith`, as a prefix test on the
character lists (kernel-reducible, unlike `String.startsWith`). -/
def strStartsWith (s p : String) : Bool := p.data.isPrefixOf s.data

structure TxIn where
  txOutId : String
  txOutIndex : Int
  signature : String
deriving DecidableEq

structure TxOut where
  address : String
  amount : Int
deriving DecidableEq

structure Transaction where
  id : String
  txIns : List TxIn
  txOuts : List TxOut
deriving DecidableEq

structure UnspentTxOut where
  txOutId : String
  txOutIndex : Int
  address : String
  amount : Int
deriving DecidableEq

structure Block where
  index : Int
  timestamp : Int
  transactions : List Transaction
  hash : String
  previousHash : String
  difficulty : Int
  proof : Int
deriving DecidableEq

/-- The elliptic library's ECDSA verification `key.verify(data, signature)`
for the public key `address`, kept abstract: arguments are address, data
(the transaction id), signature. -/
def EcVerify : Type := String → String → String → Bool

/-! ## src/transaction.ts -/

def COINBASE_AMOUNT : Int := 50

/-- Embedding of `getTransactionId`: SHA-256 over the joined
`${txOutId}${txOutIndex}` strings of the inputs followed by the joined
`${address}${amount}` strings of the outputs. -/
def getTransactionId (t : Transaction) : String :=
  let txInContent := String.join (t.txIns.map (fun i => i.txOutId ++ toString i.txOutIndex))
  let txOutContent := String.join (t.txOuts.map (fun o => o.address ++ toString o.amount))
  sha256Hex (txInContent ++ txOutContent)

def isHexDigitChar (c : Char) : Bool :=
  (('0' ≤ c) && (c ≤ '9')) || (('a' ≤ c) && (c ≤ 'f')) || (('A' ≤ c) && (c ≤ 'F'))

/-- Embedding of `validateAddress`: length 130, all characters hex, starts
with "04".  (The regex `^[a-fA-F0-9]+$` on a length-130 string is the all-hex
check.) -/
def validateAddress (address : String) : Bool :=
  if address.length != 130 then false
  else if !(address.data.all isHexDigitChar) then false
  else if !(strStartsWith address "04") then false
  else true

/-- Embedding of `validateTxInStructure`.  In the typed model the `typeof`
checks on signature, txOutId and txOutIndex always hold. -/
def validateTxInStructure (_ : TxIn) : Bool := true

/-- Embedding of `validateTxOutStructure`.  The `typeof` checks always hold
in the typed model; the address validity check remains. -/
def validateTxOutStructure (o : TxOut) : Bool := validateAddress o.address

/-- Embedding of `validateTransactionStructure`. -/
def validateTransactionStructure (t : Transaction) : Bool :=
  t.txIns.all validateTxInStructure && t.txOuts.all validateTxOutStructure

/-- Embedding of `findUnspentTxOut`. -/
def findUnspentTxOut (txOutId : String) (txOutIndex : Int) (u : List UnspentTxOut) :
    Option UnspentTxOut :=
  u.find? (fun x => x.txOutId == txOutId && x.txOutIndex == txOutIndex)

/-- Embedding of `getTxInAmount`: amount of the referenced UTxO, 0 when absent. -/
def getTxInAmount (txIn : TxIn) (u : List UnspentTxOut) : Int :=
  match findUnspentTxOut txIn.txOutId txIn.txOutIndex u with
  | some o => o.amount
  | none => 0

/-- Embedding of `validateTxIn`: the referenced UTxO must exist, and the
signature must verify against its address over the transaction id. -/
def validateTxIn (ecV : EcVerify) (txIn : TxIn) (t : Transaction) (u : List UnspentTxOut) :
    Bool :=
  match u.find? (fun x => x.txOutId == txIn.txOutId && x.txOutIndex == txIn.txOutIndex) with
  | none => false
  | some r => ecV r.address t.id txIn.signature

/-- Embedding of `validateTransaction`. -/
def validateTransaction (ecV : EcVerify) (t : Transaction) (u : List UnspentTxOut) : Bool :=
  if !(validateTransactionStructure t) then false
  else if getTransactionId t != t.id then false
  else if !(t.txIns.all (fun i => validateTxIn ecV i t u)) then false
  else
    let totalTxInValues := (t.txIns.map (fun i => getTxInAmount i u)).sum
    let totalTxOutValues := (t.txOuts.map (fun o => o.amount)).sum
    totalTxInValues == totalTxOutValues

/-- Embedding of `validateCoinbaseTx`.  The argument is `transactions[0]`,
which may be absent (`undefined`), hence the `Option`.  The code checks: id
matches the derivation, exactly one input whose `txOutIndex` equals the block
index, exactly one output whose amount is `COINBASE_AMOUNT`. -/
def validateCoinbaseTx (t? : Option Transaction) (blockIndex : Int) : Bool :=
  match t? with
  | none => false
  | some t =>
    if getTransactionId t != t.id then false
    else match t.txIns with
      | [txIn] =>
        if txIn.txOutIndex != blockIndex then false
        else match t.txOuts with
          | [txOut] => txOut.amount == COINBASE_AMOUNT
          | _ => false
      | _ => false

/-- Helper for `hasDuplicates`: the JavaScript `Set` of already-seen keys is
threaded as a list. -/
def hasDuplicatesGo (seen : List String) : List TxIn → Bool
  | [] => false
  | i :: rest =>
    let key := i.txOutId ++ toString i.txOutIndex
    if seen.contains key then true else hasDuplicatesGo (key :: seen) rest

/-- Embedding of `hasDuplicates`: inputs are keyed by the string
concatenation of `txOutId` and `txOutIndex`. -/
def hasDuplicates (txIns : List TxIn) : Bool := hasDuplicatesGo [] txIns

/-- Embedding of `validateBlockTransactions`: coinbase check on
`transactions[0]`, then duplicate-input check over all inputs, then
`validateTransaction` for every non-coinbase transaction. -/
def validateBlockTransactions (ecV : EcVerify) (transactions : List Transaction)
    (u : List UnspentTxOut) (blockIndex : Int) : Bool :=
  if !(validateCoinbaseTx transactions.head? blockIndex) then false
  else
    let txIns := transactions.flatMap (fun t => t.txIns)
    if hasDuplicates txIns then false
    else (transactions.drop 1).all (fun t => validateTransaction ecV t u)

/-- Test of `updateUnspentTxOuts`'s removal predicate: does the consumed
pair `c` reference the UTxO `x`. -/
def pairMatchB (c : String × Int) (x : UnspentTxOut) : Bool :=
  c.1 == x.txOutId && c.2 == x.txOutIndex

/-- The UTxOs a transaction creates (`updateUnspentTxOuts`'s inner map):
one per output, with `txOutId = t.id` and `txOutIndex` the position. -/
def newOuts (t : Transaction) : List UnspentTxOut :=
  t.txOuts.enum.map (fun p => UnspentTxOut.mk t.id p.1 p.2.address p.2.amount)

/-- The `(txOutId, txOutIndex)` pairs a transaction consumes
(`updateUnspentTxOuts`'s inner map over the inputs). -/
def consumedPairs (t : Transaction) : List (String × Int) :=
  t.txIns.map (fun i => (i.txOutId, i.txOutIndex))

/-- Embedding of `updateUnspentTxOuts`: the consumed `(txOutId, txOutIndex)`
pairs are removed from the incoming set only, and all freshly created outputs
are appended. -/
def updateUnspentTxOuts (transactions : List Transaction) (u : List UnspentTxOut) :
    List UnspentTxOut :=
  (u.filter (fun x => !((transactions.flatMap consumedPairs).any (fun c => pairMatchB c x)))) ++
    transactions.flatMap newOuts

/-- Embedding of `processTransactions`.  `none` models the thrown
`Error('Invalid block transactions.')`. -/
def processTransactions (ecV : EcVerify) (transactions : List Transaction)
    (u : List UnspentTxOut) (blockIndex : Int) : Option (List UnspentTxOut) :=
  if !(validateBlockTransactions ecV transactions u blockIndex) then none
  else some (updateUnspentTxOuts transactions u)

/-- Embedding of `getCoinbaseTransaction`: one synthetic input referencing
`("", blockIndex)` with empty signature, one output of `COINBASE_AMOUNT` to
the address, id derived afterwards. -/
def getCoinbaseTransaction (address : String) (blockIndex : Int) : Transaction :=
  let base : Transaction :=
    { id := "", txIns := [{ txOutId := "", txOutIndex := blockIndex, signature := "" }],
      txOuts := [{ address := address, amount := COINBASE_AMOUNT }] }
  { base with id := getTransactionId base }

/-! ## src/blockchain.ts -/

def genesisAddress : String :=
  "04bfcab8722991ae774db48f934ca79cfb7dd991229153b9f732ba5334aafcd8e7266e47076996b55a14bf9913ee3145ce0cfc1372ada8ada74bd287450313534a"

def genesisTransaction : Transaction :=
  { id := "e655f6a5f26dc9b4cac6e46f52336428287759cf81ef5ff10854f69d68f43fa3",
    txIns := [{ txOutId := "", txOutIndex := 0, signature := "" }],
    txOuts := [{ address := genesisAddress, amount := 50 }] }

/-- The hard-coded genesis block literal of src/blockchain.ts. -/
def genesisBlock : Block :=
  { index := 0, timestamp := 1734667274522, transactions := [genesisTransaction],
    hash := "45dcbece109d098f2764e371d20e29c5ef3dcc10d985c6bc8d563d1fbdc82d9e",
    previousHash := "", difficulty := 0, proof := 0 }

/-- JavaScript template interpolation of a `Transaction[]` value: the array
coerces to the comma-joined element strings, and each plain object coerces to
`[object Object]`. -/
def txsToString (ts : List Transaction) : String :=
  String.intercalate "," (ts.map (fun _ => "[object Object]"))

/-- Embedding of `generateHash`: SHA-256 over the ASCII concatenation of
index, previousHash, timestamp, interpolated transactions, difficulty, proof. -/
def generateHash (index : Int) (previousHash : String) (timestamp : Int)
    (transactions : List Transaction) (difficulty : Int) (proof : Int) : String :=
  sha256Hex (toString index ++ previousHash ++ toString timestamp ++
    txsToString transactions ++ toString difficulty ++ toString proof)

/-- Embedding of `generateHashForBlock`. -/
def generateHashForBlock (b : Block) : String :=
  generateHash b.index b.previousHash b.timestamp b.transactions b.difficulty b.proof

/-- Embedding of `validateBlockStructure`: the `typeof` checks on the five
fields always hold in the typed model. -/
def validateBlockStructure (_ : Block) : Bool := true

/-- Embedding of `validateTimestamp`.  `Date.now()` is the explicit `now`
parameter.  Note the source subtracts 60 (milliseconds), not 60_000. -/
def validateTimestamp (newBlock previousBlock : Block) (now : Int) : Bool :=
  (previousBlock.timestamp - 60 < newBlock.timestamp) && (newBlock.timestamp - 60 < now)

/-- Embedding of `validateNewBlock`: structure, index increment, previous
hash linkage, timestamp, hash recomputation.  No proof-of-work check. -/
def validateNewBlock (newBlock previousBlock : Block) (now : Int) : Bool :=
  if !(validateBlockStructure newBlock) then false
  else if newBlock.index != previousBlock.index + 1 then false
  else if newBlock.previousHash != previousBlock.hash then false
  else if !(validateTimestamp newBlock previousBlock now) then false
  else if generateHashForBlock newBlock != newBlock.hash then false
  else true

/-- Result of `addBlock`.  `rejected` is the `return false` paths,
`errored` is the exception thrown by `processTransactions` on invalid block
transactions (the source's `=== null` test is dead code since
`processTransactions` throws instead of returning null); in both cases the
chain and UTxO state are unchanged. -/
inductive AddBlockResult
  | rejected
  | errored
  | accepted (chain : List Block) (utxo : List UnspentTxOut)
deriving DecidableEq

/-- Embedding of `addBlock` acting on the module state (blockchain,
unspentTxOuts).  On an empty chain `getLastBlock()` is `undefined` and the
index comparison in `validateNewBlock` is false (NaN inequality), hence
`rejected`. -/
def addBlock (ecV : EcVerify) (chain : List Block) (utxo : List UnspentTxOut)
    (newBlock : Block) (now : Int) : AddBlockResult :=
  match chain.getLast? with
  | none => .rejected
  | some last =>
    if !(validateNewBlock newBlock last now) then .rejected
    else match processTransactions ecV newBlock.transactions utxo newBlock.index with
      | none => .errored
      | some u => .accepted (chain ++ [newBlock]) u

/-- Loop of `validateChain` over the non-genesis blocks: each block is
validated against its predecessor and its transactions are replayed. -/
def validateChainLoop (ecV : EcVerify) (now : Int) :
    Block → List UnspentTxOut → List Block → Option (List UnspentTxOut)
  | _, u, [] => some u
  | prev, u, b :: bs =>
    if !(validateNewBlock b prev now) then none
    else match processTransactions ecV b.transactions u b.index with
      | none => none
      | some u' => validateChainLoop ecV now b u' bs

/-- Embedding of `validateChain`: the candidate's first block must equal the
local genesis block (`JSON.stringify` equality is structural equality in
this model), then every block's transactions are replayed from the empty
UTxO set, validating each non-genesis block against its predecessor.
`none` covers both the `return null` paths and the exception propagated out
of `processTransactions`; in either case no state changes. -/
def validateChain (ecV : EcVerify) (localGenesis : Block) (blocks : List Block)
    (now : Int) : Option (List UnspentTxOut) :=
  match blocks with
  | [] => none
  | g :: rest =>
    if g != localGenesis then none
    else match processTransactions ecV g.transactions [] g.index with
      | none => none
      | some u => validateChainLoop ecV now g u rest

/-- Embedding of `getAccumulatedDifficulty`: `Σ Math.pow(2, difficulty)` in
real arithmetic (ℚ suffices for integer difficulties of either sign). -/
def getAccumulatedDifficulty (chain : List Block) : ℚ :=
  (chain.map (fun b => (2 : ℚ) ^ b.difficulty)).sum

/-- Embedding of `hasTxIn` (transactionPool.ts). -/
def hasTxIn (txIn : TxIn) (u : List UnspentTxOut) : Bool :=
  u.any (fun x => x.txOutId == txIn.txOutId && x.txOutIndex == txIn.txOutIndex)

/-- Embedding of `updateTransactionPool`: drop every pooled transaction that
has an input no longer present in the UTxO set.  (The source collects the
invalid transactions first and removes them by reference with `includes`;
over distinct list elements that is this single filter.) -/
def updateTransactionPool (pool : List Transaction) (u : List UnspentTxOut) :
    List Transaction :=
  pool.filter (fun t => t.txIns.all (fun i => hasTxIn i u))

/-- Node state touched by `replaceChain`: the chain, the UTxO set and the
transaction pool. -/
structure NodeState where
  chain : List Block
  unspentTxOuts : List UnspentTxOut
  transactionPool : List Transaction
deriving DecidableEq

/-- Embedding of `replaceChain`: validate the candidate against the local
genesis, reject when its accumulated difficulty is LESS than the local one
(equality passes), reject unless strictly longer, else replace chain, UTxO
set and prune the pool. -/
def replaceChain (ecV : EcVerify) (st : NodeState) (newChain : List Block) (now : Int) :
    Bool × NodeState :=
  match st.chain.head? with
  | none => (false, st)
  | some g =>
    match validateChain ecV g newChain now with
    | none => (false, st)
    | some u =>
      if getAccumulatedDifficulty newChain < getAccumulatedDifficulty st.chain then (false, st)
      else if newChain.length ≤ st.chain.length then (false, st)
      else (true, { chain := newChain, unspentTxOuts := u,
                    transactionPool := updateTransactionPool st.transactionPool u })

/-- Modelled from the spec: `hexToBinary(hex) → binary-digits string` (the
source file utils.ts is not in the corpus).  Each hex digit maps to its
four binary digits; a non-hex character yields `none` (the source returns
null). -/
def hexCharToBinary (c : Char) : Option String :=
  if c = '0' then some "0000" else if c = '1' then some "0001"
  else if c = '2' then some "0010" else if c = '3' then some "0011"
  else if c = '4' then some "0100" else if c = '5' then some "0101"
  else if c = '6' then some "0110" else if c = '7' then some "0111"
  else if c = '8' then some "1000" else if c = '9' then some "1001"
  else if c = 'a' then some "1010" else if c = 'b' then some "1011"
  else if c = 'c' then some "1100" else if c = 'd' then some "1101"
  else if c = 'e' then some "1110" else if c = 'f' then some "1111"
  else none

/-- Modelled from the spec: binary expansion of a hex string, `none` on a
non-hex character. -/
def hexToBinary (s : String) : Option String :=
  (s.data.mapM hexCharToBinary).map String.join

/-- Embedding of `checkHashDifficulty` (used by the source only inside the
mining loop `findBlock`, an unbounded proof search that is not needed by any
claim and therefore not embedded): the binary expansion of the hash must
start with `difficulty` zero characters.  (`'0'.repeat` of a negative count
would throw in JavaScript; the function is only applied to non-negative
difficulties, modelled by `Int.toNat`.) -/
def checkHashDifficulty (hash : String) (difficulty : Int) : Bool :=
  match hexToBinary hash with
  | none => false
  | some binary => strStartsWith binary (String.mk (List.replicate difficulty.toNat '0'))

def BLOCK_GENERATION_INTERVAL : Int := 10

def DIFFICULTY_ADJUSTMENT_INTERVAL : Int := 10

/-- JavaScript array indexing: negative or out-of-range indices give
`undefined`. -/
def jsIndex (chain : List Block) (i : Int) : Option Block :=
  if i < 0 then none else chain.get? i.toNat

/-- Embedding of `adjustDifficulty`.  The reference block is
`blockchain[blockchain.length - 10]`; `none` models the TypeError raised
when that element is `undefined` (chains shorter than 10).  The two time
quotients are real-number divisions, taken in ℚ. -/
def adjustDifficulty (chain : List Block) (lastBlock : Block) : Option Int :=
  match jsIndex chain ((chain.length : Int) - DIFFICULTY_ADJUSTMENT_INTERVAL) with
  | none => none
  | some adj =>
    let timeExpected : ℚ := (BLOCK_GENERATION_INTERVAL : ℚ) * (DIFFICULTY_ADJUSTMENT_INTERVAL : ℚ)
    let timeTaken : ℚ := (lastBlock.timestamp : ℚ) / 1000 - (adj.timestamp : ℚ) / 1000
    if timeTaken < timeExpected / 2 then some (adj.difficulty + 1)
    else if timeTaken > timeExpected * 2 then some (adj.difficulty - 1)
    else some adj.difficulty

/-- Embedding of `getDifficulty`: retarget when the last block's index is a
nonzero multiple of `DIFFICULTY_ADJUSTMENT_INTERVAL = 10`, else return the
last block's difficulty.  (`Int.tmod` is the JavaScript `%` remainder.) -/
def getDifficulty (chain : List Block) : Option Int :=
  match chain.getLast? with
  | none => none
  | some last =>
    if (last.index.tmod DIFFICULTY_ADJUSTMENT_INTERVAL == 0) && (last.index != 0) then
      adjustDifficulty chain last
    else some last.difficulty

/-! ## src/transactionPool.ts -/

/-- Embedding of `getTxPoolIns`. -/
def getTxPoolIns (pool : List Transaction) : List TxIn :=
  pool.flatMap (fun t => t.txIns)

/-- Embedding of `isValidTxForPool`: no input of the transaction may collide
on `(txOutId, txOutIndex)` with any input already in the pool. -/
def isValidTxForPool (t : Transaction) (pool : List Transaction) : Bool :=
  let txPoolIns := getTxPoolIns pool
  t.txIns.all (fun i =>
    !(txPoolIns.any (fun p => (i.txOutIndex == p.txOutIndex) && (i.txOutId == p.txOutId))))

/-- Embedding of `addToTransactionPool`.  `none` models the thrown
`Error('Trying to add invalid tx to pool')`; the pool is unchanged in that
case.  On success the transaction is pushed at the end. -/
def addToTransactionPool (ecV : EcVerify) (t : Transaction) (u : List UnspentTxOut)
    (pool : List Transaction) : Option (List Transaction) :=
  if !(validateTransaction ecV t u) then none
  else if !(isValidTxForPool t pool) then none
  else some (pool ++ [t])

/-! ## src/wallet.ts -/

/-- Embedding of `filterTxPoolTxs`: drop every UTxO whose
`(txOutId, txOutIndex)` appears in some input of the pool.  (The source
collects the removable elements and excludes them by reference with
`includes`; over the elements of the same list that is this one filter.) -/
def filterTxPoolTxs (u : List UnspentTxOut) (pool : List Transaction) : List UnspentTxOut :=
  let txIns := pool.flatMap (fun t => t.txIns)
  u.filter (fun x =>
    !(txIns.any (fun i => (i.txOutIndex == x.txOutIndex) && (i.txOutId == x.txOutId))))

/-- Loop of `findTxOutsForAmount`: push each UTxO, then stop as soon as the
accumulated amount reaches the target. -/
def findTxOutsGo (amount currentAmount : Int) (included : List UnspentTxOut) :
    List UnspentTxOut → Except String (List UnspentTxOut × Int)
  | [] => .error "Not enough coins to send transaction"
  | x :: rest =>
    let included' := included ++ [x]
    let current' := currentAmount + x.amount
    if amount ≤ current' then .ok (included', current' - amount)
    else findTxOutsGo amount current' included' rest

/-- Embedding of `findTxOutsForAmount`: greedy selection in iteration order;
the thrown `Error('Not enough coins to send transaction')` is the `.error`. -/
def findTxOutsForAmount (amount : Int) (myUnspentTxOuts : List UnspentTxOut) :
    Except String (List UnspentTxOut × Int) :=
  findTxOutsGo amount 0 [] myUnspentTxOuts

/-- Embedding of `createTxOuts`: the receiver output, plus a change output
exactly when the leftover is nonzero. -/
def createTxOuts (receiverAddress myAddress : String) (amount leftOverAmount : Int) :
    List TxOut :=
  if leftOverAmount == 0 then [{ address := receiverAddress, amount := amount }]
  else [{ address := receiverAddress, amount := amount },
        { address := myAddress, amount := leftOverAmount }]

/-- Embedding of `signTxIn` (transaction.ts), with the elliptic primitives
abstract: `pubFromPriv` derives the public key and `ecSign` signs the
transaction id.  The source performs the private-key/address comparison
twice with the same operands; a single test is equivalent. -/
def signTxIn (pubFromPriv : String → String) (ecSign : String → String → String)
    (t : Transaction) (txInIndex : Nat) (privateKey : String) (u : List UnspentTxOut) :
    Except String String :=
  match t.txIns[txInIndex]? with
  | none => .error "Referenced unspent transaction output not found."
  | some txIn =>
    match u.find? (fun x => (x.txOutId == txIn.txOutId) && (x.txOutIndex == txIn.txOutIndex)) with
    | none => .error "Referenced unspent transaction output not found."
    | some r =>
      if pubFromPriv privateKey != r.address then
        .error "Trying to sign an input with an invalid private key."
      else .ok (ecSign privateKey t.id)

/-- The `transaction.txIns.map((txIn, index) => ...)` signing pass of
`createTransaction`: sign each input in order, aborting on the first thrown
error. -/
def signTxInsFrom (pubFromPriv : String → String) (ecSign : String → String → String)
    (t : Transaction) (privateKey : String) (u : List UnspentTxOut) :
    Nat → List TxIn → Except String (List TxIn)
  | _, [] => .ok []
  | i, txIn :: rest =>
    match signTxIn pubFromPriv ecSign t i privateKey u with
    | .error e => .error e
    | .ok sig =>
      match signTxInsFrom pubFromPriv ecSign t privateKey u (i + 1) rest with
      | .error e => .error e
      | .ok rest' => .ok ({ txIn with signature := sig } :: rest')

/-- Embedding of `createTransaction` (wallet.ts): own UTxOs, minus the ones
already consumed by the pool, selected greedily; receiver plus optional
change outputs; id derived before signing; every input then signed.  Thrown
errors are `.error` with the source's message. -/
def createTransaction (pubFromPriv : String → String) (ecSign : String → String → String)
    (receiverAddress : String) (amount : Int) (privateKey : String)
    (transactionPool : List Transaction) (unspentTxOuts : List UnspentTxOut) :
    Except String Transaction :=
  let myAddress := pubFromPriv privateKey
  let myUnspentTxOuts := unspentTxOuts.filter (fun x => x.address == myAddress)
  let myUnspentTxOutsInPool := filterTxPoolTxs myUnspentTxOuts transactionPool
  match findTxOutsForAmount amount myUnspentTxOutsInPool with
  | .error e => .error e
  | .ok (includedUnspentTxOuts, leftOverAmount) =>
    let unsignedTxIns := includedUnspentTxOuts.map (fun x =>
      ({ txOutId := x.txOutId, txOutIndex := x.txOutIndex, signature := "" } : TxIn))
    let txOuts := createTxOuts receiverAddress myAddress amount leftOverAmount
    let base : Transaction := { id := "", txIns := unsignedTxIns, txOuts := txOuts }
    let t := { base with id := getTransactionId base }
    match signTxInsFrom pubFromPriv ecSign t privateKey unspentTxOuts 0 t.txIns with
    | .error e => .error e
    | .ok signed => .ok { t with txIns := signed }

/-! ## Concrete material shared by several claims -/

/-- An all-accepting instance of the abstract ECDSA verifier, standing for
runs in which every presented signature is valid. -/
def ecTrue : EcVerify := fun _ _ _ => true

/-- The UTxO set derived from the genesis block, i.e.
`processTransactions(genesisBlock.transactions, [], 0)`. -/
def initialUnspentTxOuts : List UnspentTxOut :=
  [{ txOutId := genesisTransaction.id, txOutIndex := 0, address := genesisAddress, amount := 50 }]

/-- The startup derivation of the UTxO set from the genesis block succeeds
and yields the single genesis output; in particular the hard-coded genesis
transaction id is the real SHA-256 of its derivation string. -/
theorem initialUnspentTxOuts_eq :
    processTransactions ecTrue [genesisTransaction] [] 0 = some initialUnspentTxOuts := by
  decide

/-- The hard-coded genesis hash is the real SHA-256 of the genesis block's
serialization (with the transaction list interpolating as
`[object Object]`). -/
theorem genesisBlock_hash_eq : generateHashForBlock genesisBlock = genesisBlock.hash := by
  decide

/-- Coinbase transaction for block 1, paying the genesis address
(`getCoinbaseTransaction genesisAddress 1`; the literal id is the SHA-256 of
the derivation string, which the id checks inside the decided theorems below
recompute and verify). -/
def cb1 : Transaction :=
  { id := "f089e8113094fab66b511402ecce021d0c1f664a719b5df1652a24d532b2f749",
    txIns := [{ txOutId := "", txOutIndex := 1, signature := "" }],
    txOuts := [{ address := genesisAddress, amount := 50 }] }

/-- Coinbase transaction for block 2, paying the genesis address
(`getCoinbaseTransaction genesisAddress 2`, with the derived id inlined). -/
def cb2 : Transaction :=
  { id := "88ab46660e9a34a8f3a67804748b22e1d2115c12b10ee303ec7ce8f4b0dd0d13",
    txIns := [{ txOutId := "", txOutIndex := 2, signature := "" }],
    txOuts := [{ address := genesisAddress, amount := 50 }] }

/-! ## Claim C4 — timestamp tolerance (code bug: 60 ms instead of 60 s) -/

/-- Modelled from the spec: the timestamp rule with the one-minute
(60,000 ms) tolerance on both sides, which §9 of the spec fixes as the
intent of the source's mixed seconds/milliseconds comparison. -/
def validateTimestampSpec (newBlock previousBlock : Block) (now : Int) : Bool :=
  (previousBlock.timestamp - 60000 < newBlock.timestamp) &&
    (newBlock.timestamp - 60000 < now)

def c4PrevBlock : Block :=
  { index := 0, timestamp := 100000, transactions := [], hash := "", previousHash := "",
    difficulty := 0, proof := 0 }

def c4NewBlock : Block :=
  { index := 1, timestamp := 40001, transactions := [], hash := "", previousHash := "",
    difficulty := 0, proof := 0 }

/-- Claim C4: block validation accepts a timestamp iff it is within 60,000 ms
below the previous timestamp and at most 60,000 ms ahead of the wall clock.
The code subtracts 60 (milliseconds) instead of 60,000 although timestamps
are in milliseconds, so a block 59,999 ms older than its predecessor — which
the spec's rule accepts — is rejected by the code. -/
theorem validateTimestamp_divergence :
    validateTimestampSpec c4NewBlock c4PrevBlock 100000 = true ∧
    validateTimestamp c4NewBlock c4PrevBlock 100000 = false := by
  decide

/-! ## Claim C6 — difficulty retarget reference block -/

/-- Modelled from the claim (spec §4.F): the retarget difficulty is computed
from the block AT INDEX `N − 10`, where `N` is the last block's index. -/
def getDifficultySpec (chain : List Block) : Option Int :=
  match chain.getLast? with
  | none => none
  | some last =>
    if (last.index.tmod 10 == 0) && (last.index != 0) then
      match chain.find? (fun b => b.index == last.index - 10) with
      | none => none
      | some adj =>
        let timeTaken : ℚ := (last.timestamp : ℚ) / 1000 - (adj.timestamp : ℚ) / 1000
        if timeTaken < 50 then some (adj.difficulty + 1)
        else if timeTaken > 200 then some (adj.difficulty - 1)
        else some adj.difficulty
    else some last.difficulty

/-- Dense 11-block chain (block `i` at position `i`): block 0 has difficulty
5 and timestamp 0, block 1 has difficulty 7 and timestamp 200,000 ms, the
last block (index 10) has timestamp 210,000 ms. -/
def c6Chain : List Block :=
  [{ index := 0, timestamp := 0, transactions := [], hash := "", previousHash := "",
     difficulty := 5, proof := 0 },
   { index := 1, timestamp := 200000, transactions := [], hash := "", previousHash := "",
     difficulty := 7, proof := 0 },
   { index := 2, timestamp := 200000, transactions := [], hash := "", previousHash := "",
     difficulty := 0, proof := 0 },
   { index := 3, timestamp := 200000, transactions := [], hash := "", previousHash := "",
     difficulty := 0, proof := 0 },
   { index := 4, timestamp := 200000, transactions := [], hash := "", previousHash := "",
     difficulty := 0, proof := 0 },
   { index := 5, timestamp := 200000, transactions := [], hash := "", previousHash := "",
     difficulty := 0, proof := 0 },
   { index := 6, timestamp := 200000, transactions := [], hash := "", previousHash := "",
     difficulty := 0, proof := 0 },
   { index := 7, timestamp := 200000, transactions := [], hash := "", previousHash := "",
     difficulty := 0, proof := 0 },
   { index := 8, timestamp := 200000, transactions := [], hash := "", previousHash := "",
     difficulty := 0, proof := 0 },
   { index := 9, timestamp := 200000, transactions := [], hash := "", previousHash := "",
     difficulty := 0, proof := 0 },
   { index := 10, timestamp := 210000, transactions := [], hash := "", previousHash := "",
     difficulty := 0, proof := 0 }]

/-- Counterexample for claim C6: on a dense chain with last index N = 10 the
code retargets from `blockchain[length − 10]`, the block of INDEX 1 (elapsed
10 s < 50 s, so 7 + 1 = 8), not from the block of index N − 10 = 0 as the
claim states (elapsed 210 s > 200 s, which would give 5 − 1 = 4). -/
theorem getDifficulty_offByOne :
    getDifficulty c6Chain = some 8 ∧ getDifficultySpec c6Chain = some 4 ∧ (8 : Int) ≠ 4 := by
  refine ⟨?_, ?_, by decide⟩
  · have hlast : c6Chain.getLast? = some
        { index := 10, timestamp := 210000, transactions := [], hash := "", previousHash := "",
          difficulty := 0, proof := 0 } := by decide
    have hadj : jsIndex c6Chain ((c6Chain.length : Int) - 10) = some
        { index := 1, timestamp := 200000, transactions := [], hash := "", previousHash := "",
          difficulty := 7, proof := 0 } := by decide
    simp only [getDifficulty, hlast, adjustDifficulty, BLOCK_GENERATION_INTERVAL,
      DIFFICULTY_ADJUSTMENT_INTERVAL, hadj]
    norm_num
  · have hlast : c6Chain.getLast? = some
        { index := 10, timestamp := 210000, transactions := [], hash := "", previousHash := "",
          difficulty := 0, proof := 0 } := by decide
    have hfind : c6Chain.find? (fun b => b.index == (10 : Int) - 10) = some
        { index := 0, timestamp := 0, transactions := [], hash := "", previousHash := "",
          difficulty := 5, proof := 0 } := by decide
    simp only [getDifficultySpec, DIFFICULTY_ADJUSTMENT_INTERVAL, hlast, hfind]
    norm_num

/-! ## Claim C5 — coinbase validation -/

/-- A transaction that satisfies `validateCoinbaseTx` for block index 0
although its single input has a non-empty `txOutId` and a non-empty
signature (and an output address that is not address-valid). -/
def c5Coinbase : Transaction :=
  let base : Transaction :=
    { id := "", txIns := [{ txOutId := "x", txOutIndex := 0, signature := "sig" }],
      txOuts := [{ address := "anything", amount := 50 }] }
  { base with id := getTransactionId base }

/-- Counterexample for claim C5: `validateCoinbaseTx` accepts a transaction
whose TxIn has `txOutId = "x"` and signature `"sig"`; the code checks
neither `txOutId = ""` nor the emptiness of the signature, contrary to the
claimed iff. -/
theorem validateCoinbaseTx_ignores_fields :
    validateCoinbaseTx (some c5Coinbase) 0 = true ∧
    c5Coinbase.txIns.map TxIn.txOutId ≠ [""] ∧
    c5Coinbase.txIns.map TxIn.signature ≠ [""] := by
  decide

/-! ## Claim C10 — duplicate detection key is not injective -/

/-- Coinbase transaction for block 3
(`getCoinbaseTransaction genesisAddress 3`, with the derived id inlined). -/
def c10Coinbase : Transaction :=
  { id := "7fdd46aa0a82b3916e3f4800e7c51dd075e8c1dff77cc897c154b48d1f5ed8cd",
    txIns := [{ txOutId := "", txOutIndex := 3, signature := "" }],
    txOuts := [{ address := genesisAddress, amount := 50 }] }

/-- A transaction whose two inputs reference the distinct pairs
`("a1", 2)` and `("a", 12)`, both of which key to the string `"a12"`. -/
def c10Tx : Transaction :=
  { id := "irrelevant",
    txIns := [{ txOutId := "a1", txOutIndex := 2, signature := "" },
              { txOutId := "a", txOutIndex := 12, signature := "" }],
    txOuts := [] }

def c10Txs : List Transaction := [c10Coinbase, c10Tx]

/-- Claim C10: a block whose TxIns reference pairwise-distinct
`(txOutId, txOutIndex)` pairs is nevertheless rejected by
`validateBlockTransactions` as containing duplicates, because inputs are
keyed by the non-injective concatenation `${txOutId}${txOutIndex}`
(here `("a1", 2)` and `("a", 12)` both key to `"a12"`).  The coinbase
itself is valid, so the rejection comes from the duplicate check. -/
theorem hasDuplicates_key_collision :
    List.Pairwise (fun a b : TxIn => (a.txOutId, a.txOutIndex) ≠ (b.txOutId, b.txOutIndex))
      (c10Txs.flatMap (fun t => t.txIns)) ∧
    hasDuplicates (c10Txs.flatMap (fun t => t.txIns)) = true ∧
    validateCoinbaseTx c10Txs.head? 3 = true ∧
    validateBlockTransactions ecTrue c10Txs [] 3 = false := by
  decide

/-! ## Claim C9 — transaction id derivation -/

/-- Claim C9: `getTransactionId` is the SHA-256 hex digest of the joined
`${txOutId}${txOutIndex}` input strings followed by the joined
`${address}${amount}` output strings, and is therefore invariant under any
change to the inputs' signature fields (or the id field). -/
theorem getTransactionId_spec : ∀ t₁ t₂ : Transaction,
    getTransactionId t₁ =
      sha256Hex (String.join (t₁.txIns.map (fun i => i.txOutId ++ toString i.txOutIndex)) ++
        String.join (t₁.txOuts.map (fun o => o.address ++ toString o.amount))) ∧
    (t₁.txIns.map (fun i => (i.txOutId, i.txOutIndex)) =
        t₂.txIns.map (fun i => (i.txOutId, i.txOutIndex)) →
      t₁.txOuts = t₂.txOuts → getTransactionId t₁ = getTransactionId t₂) := by
  intro t₁ t₂
  refine ⟨rfl, fun hIns hOuts => ?_⟩
  have key : ∀ t : Transaction, t.txIns.map (fun i => i.txOutId ++ toString i.txOutIndex) =
      (t.txIns.map (fun i => (i.txOutId, i.txOutIndex))).map (fun p => p.1 ++ toString p.2) := by
    intro t
    rw [List.map_map]
    rfl
  unfold getTransactionId
  rw [key t₁, key t₂, hIns, hOuts]

def c9Tx1 : Transaction :=
  { id := "", txIns := [{ txOutId := "a", txOutIndex := 1, signature := "s1" }],
    txOuts := [{ address := "x", amount := 2 }] }

def c9Tx2 : Transaction :=
  { id := "other", txIns := [{ txOutId := "a", txOutIndex := 1, signature := "s2" }],
    txOuts := [{ address := "x", amount := 2 }] }

/-- Witness for claim C9: two transactions that differ only in the
signature (and id) fields have the same derived id. -/
theorem getTransactionId_spec_witness : getTransactionId c9Tx1 = getTransactionId c9Tx2 :=
  (getTransactionId_spec c9Tx1 c9Tx2).2 rfl rfl

/-! ## Claim C1 — proof of work is not validated by addBlock -/

/-- A block of stated difficulty 20 whose hash is correctly derived but
whose proof is 0: its SHA-256 hash does not begin with 20 zero bits. -/
def c1Block : Block :=
  { index := 1, timestamp := 1734667274522, transactions := [cb1],
    hash := "0230e808650bad3a9e33b9dcc933f4f4e9b571bf5a130774d2a93700cca1567c",
    previousHash := genesisBlock.hash, difficulty := 20, proof := 0 }

/-- Counterexample for claim C1: `addBlock` accepts `c1Block` (structure,
index, linkage, timestamp and hash all check out, and its coinbase-only
transaction list processes), yet the binary expansion of its hash does not
begin with `difficulty = 20` zero bits: no proof-of-work check is performed
during validation. -/
theorem addBlock_accepts_unsolved_pow :
    addBlock ecTrue [genesisBlock] initialUnspentTxOuts c1Block 1734667274522 =
      .accepted [genesisBlock, c1Block]
        [{ txOutId := genesisTransaction.id, txOutIndex := 0, address := genesisAddress,
           amount := 50 },
         { txOutId := cb1.id, txOutIndex := 0, address := genesisAddress, amount := 50 }] ∧
    (hexToBinary c1Block.hash).map (fun bin => bin.data.take 20) =
      some ("00000010001100001110".data) ∧
    "00000010001100001110".data ≠ List.replicate 20 '0' := by
  decide

/-- Claim C1 (amended): `addBlock` accepts a block iff the chain is nonempty
and the block passes `validateNewBlock` against the last block (structure,
index, previous hash, timestamp, hash) and its transactions process; no
proof-of-work condition appears, so an accepted block's hash need not begin
with `difficulty` zero bits. -/
theorem addBlock_spec (ecV : EcVerify) (chain : List Block) (utxo : List UnspentTxOut)
    (b : Block) (now : Int) (c' : List Block) (u' : List UnspentTxOut) :
    addBlock ecV chain utxo b now = .accepted c' u' ↔
      ∃ last, chain.getLast? = some last ∧ validateNewBlock b last now = true ∧
        processTransactions ecV b.transactions utxo b.index = some u' ∧ c' = chain ++ [b] := by
  unfold addBlock
  split
  · rename_i hl
    constructor
    · intro h
      simp at h
    · rintro ⟨last', hlast', -⟩
      rw [hl] at hlast'
      cases hlast'
  · rename_i last hl
    split
    · rename_i hv
      constructor
      · intro h
        simp at h
      · rintro ⟨last', hlast', hv', -, -⟩
        rw [hl] at hlast'
        injection hlast' with he
        subst he
        rw [hv'] at hv
        simp at hv
    · rename_i hv
      have hvt : validateNewBlock b last now = true := by
        revert hv
        cases validateNewBlock b last now <;> simp
      split
      · rename_i hp
        constructor
        · intro h
          simp at h
        · rintro ⟨last', hlast', -, hp', -⟩
          rw [hl] at hlast'
          injection hlast' with he
          subst he
          rw [hp] at hp'
          cases hp'
      · rename_i u hp
        constructor
        · intro h
          injection h with h1 h2
          exact ⟨last, hl, hvt, h2 ▸ hp, h1.symm⟩
        · rintro ⟨last', hlast', -, hp', hc'⟩
          rw [hl] at hlast'
          injection hlast' with he
          subst he
          rw [hp] at hp'
          injection hp' with hu
          rw [hc', hu]

/-! ## Claim C2 — fork choice accepts equal accumulated difficulty -/

/-- First candidate block: difficulty 1, coinbase only; the literal hash is
the block's real SHA-256, which `validateNewBlock` recomputes and verifies
inside the decided theorem below. -/
def c2Block1 : Block :=
  { index := 1, timestamp := 1734667274522, transactions := [cb1],
    hash := "b4e3bbaf6cb0950991619fd9c1d927437da893c028e1e9b6e3d64c0691738ffb",
    previousHash := genesisBlock.hash, difficulty := 1, proof := 0 }

/-- Second candidate block: difficulty 1, coinbase only, correctly hashed
and linked to `c2Block1`. -/
def c2Block2 : Block :=
  { index := 2, timestamp := 1734667274522, transactions := [cb2],
    hash := "63381ec0c4f90def42869cc33c217fd28483890a69cfb88d85dae99c777232c5",
    previousHash := "b4e3bbaf6cb0950991619fd9c1d927437da893c028e1e9b6e3d64c0691738ffb",
    difficulty := 1, proof := 0 }

/-- Fully valid candidate chain of weight 2^0 + 2^1 + 2^1 = 5 and length 3. -/
def c2Candidate : List Block := [genesisBlock, c2Block1, c2Block2]

/-- Local second block of difficulty 2 (state only, never re-validated by
`replaceChain`), giving the local chain weight 2^0 + 2^2 = 5 and length 2. -/
def c2LocalSecond : Block :=
  { index := 1, timestamp := 1734667274522, transactions := [], hash := "aa",
    previousHash := genesisBlock.hash, difficulty := 2, proof := 0 }

def c2LocalState : NodeState :=
  { chain := [genesisBlock, c2LocalSecond], unspentTxOuts := initialUnspentTxOuts,
    transactionPool := [] }

/-- UTxO set derived while validating the candidate chain. -/
def c2U : List UnspentTxOut :=
  [{ txOutId := genesisTransaction.id, txOutIndex := 0, address := genesisAddress, amount := 50 },
   { txOutId := cb1.id, txOutIndex := 0, address := genesisAddress, amount := 50 },
   { txOutId := cb2.id, txOutIndex := 0, address := genesisAddress, amount := 50 }]

/-- Computation lemma for `replaceChain`: when the local head is `g`, the
candidate validates to `u`, its weight is not below the local weight, and it
is strictly longer, the chain is replaced. -/
theorem replaceChain_pos (ecV : EcVerify) (st : NodeState) (newChain : List Block) (now : Int)
    (g : Block) (u : List UnspentTxOut)
    (hh : st.chain.head? = some g) (hv : validateChain ecV g newChain now = some u)
    (hw : ¬(getAccumulatedDifficulty newChain < getAccumulatedDifficulty st.chain))
    (hl : ¬(newChain.length ≤ st.chain.length)) :
    replaceChain ecV st newChain now =
      (true, { chain := newChain, unspentTxOuts := u,
               transactionPool := updateTransactionPool st.transactionPool u }) := by
  unfold replaceChain
  split
  · rename_i h
    rw [hh] at h
    cases h
  · rename_i g' h
    rw [hh] at h
    injection h with he
    subst he
    split
    · rename_i h2
      rw [hv] at h2
      cases h2
    · rename_i u' h2
      rw [hv] at h2
      injection h2 with he2
      subst he2
      rw [if_neg hw, if_neg hl]

/-- Counterexample for claim C2: `replaceChain` accepts a fully valid
candidate whose accumulated weight EQUALS the local chain's weight (both 5),
because the source only rejects candidates of strictly smaller weight; the
claim's strict-inequality requirement does not hold. -/
theorem replaceChain_accepts_equal_weight :
    (replaceChain ecTrue c2LocalState c2Candidate 1734667274522).1 = true ∧
    getAccumulatedDifficulty c2Candidate = getAccumulatedDifficulty c2LocalState.chain := by
  have hh : c2LocalState.chain.head? = some genesisBlock := rfl
  have hv : validateChain ecTrue genesisBlock c2Candidate 1734667274522 = some c2U := by decide
  have hwc : getAccumulatedDifficulty c2Candidate = 5 := by
    simp only [getAccumulatedDifficulty, c2Candidate, List.map_cons, List.map_nil,
      List.sum_cons, List.sum_nil]
    norm_num [genesisBlock, c2Block1, c2Block2]
  have hwl : getAccumulatedDifficulty c2LocalState.chain = 5 := by
    simp only [getAccumulatedDifficulty, c2LocalState, List.map_cons, List.map_nil,
      List.sum_cons, List.sum_nil]
    norm_num [genesisBlock, c2LocalSecond]
  have hw : ¬(getAccumulatedDifficulty c2Candidate <
      getAccumulatedDifficulty c2LocalState.chain) := by
    rw [hwc, hwl]
    exact lt_irrefl 5
  have hl : ¬(c2Candidate.length ≤ c2LocalState.chain.length) := by decide
  refine ⟨?_, by rw [hwc, hwl]⟩
  rw [replaceChain_pos ecTrue c2LocalState c2Candidate 1734667274522 genesisBlock c2U hh hv hw hl]

/-- Claim C2 (amended): `replaceChain` accepts a candidate iff the local
chain is nonempty, the candidate validates against the local genesis with
transactions replayed from an empty UTxO set, the candidate's accumulated
weight is NOT LESS than the local chain's weight (equality passes), and the
candidate is strictly longer; and whenever it does not accept, the node
state is unchanged. -/
theorem replaceChain_spec (ecV : EcVerify) (st : NodeState) (newChain : List Block) (now : Int) :
    ((replaceChain ecV st newChain now).1 = true ↔
      ∃ g u, st.chain.head? = some g ∧ validateChain ecV g newChain now = some u ∧
        ¬(getAccumulatedDifficulty newChain < getAccumulatedDifficulty st.chain) ∧
        st.chain.length < newChain.length) ∧
    ((replaceChain ecV st newChain now).1 = false → (replaceChain ecV st newChain now).2 = st) := by
  unfold replaceChain
  split
  · rename_i hh
    constructor
    · constructor
      · intro h
        simp at h
      · rintro ⟨g, u, hg, -⟩
        rw [hh] at hg
        cases hg
    · intro _
      rfl
  · rename_i g hh
    split
    · rename_i hv
      constructor
      · constructor
        · intro h
          simp at h
        · rintro ⟨g', u, hg', hv', -⟩
          rw [hh] at hg'
          injection hg' with he
          subst he
          rw [hv] at hv'
          cases hv'
      · intro _
        rfl
    · rename_i u hv
      by_cases hw : getAccumulatedDifficulty newChain < getAccumulatedDifficulty st.chain
      · rw [if_pos hw]
        constructor
        · constructor
          · intro h
            simp at h
          · rintro ⟨g', u', hg', hv', hw', -⟩
            exact absurd hw hw'
        · intro _
          rfl
      · rw [if_neg hw]
        by_cases hl : newChain.length ≤ st.chain.length
        · rw [if_pos hl]
          constructor
          · constructor
            · intro h
              simp at h
            · rintro ⟨g', u', hg', hv', -, hlen⟩
              exact absurd hl (not_le.mpr hlen)
          · intro _
            rfl
        · rw [if_neg hl]
          constructor
          · constructor
            · intro _
              exact ⟨g, u, hh, hv, hw, not_le.mp hl⟩
            · intro _
              rfl
          · intro h
            simp at h

/-! ## Claim C3 — UTxO set update is global, not per-transaction -/

/-- Modelled from the claim (spec §4.C, UTxO set update): the
per-transaction SEQUENTIAL update — for each transaction in block order,
remove every UTxO whose pair is consumed by its TxIns from the current set,
then insert one new UTxO per TxOut. -/
def updateUnspentTxOutsSpec : List Transaction → List UnspentTxOut → List UnspentTxOut
  | [], u => u
  | t :: ts, u =>
      updateUnspentTxOutsSpec ts
        ((u.filter (fun x => !((consumedPairs t).any (fun c => pairMatchB c x)))) ++ newOuts t)

/-- A transaction spending the UTxO whose pair `(cb1.id, 0)` coincides with
the pair of the output created by the block's own coinbase `cb1` (the
literal id is the SHA-256 of its derivation string, verified by the id check
inside the decided theorem below). -/
def c3Tx : Transaction :=
  { id := "7cf375d19a28a59e1802ca2f4a03b4d35bf830f75d613bd61f0ef4d34d8094a5",
    txIns := [{ txOutId := cb1.id, txOutIndex := 0, signature := "s" }],
    txOuts := [{ address := genesisAddress, amount := 50 }] }

/-- An incoming UTxO set containing an entry whose `txOutId` happens to
equal the id of the block's coinbase transaction. -/
def c3UTxO : List UnspentTxOut :=
  [{ txOutId := cb1.id, txOutIndex := 0, address := genesisAddress, amount := 50 }]

/-- Counterexample for claim C3: `processTransactions` succeeds on the block
`[cb1, c3Tx]` but its result is NOT the per-transaction sequential update the
claim describes: the removal is applied to the incoming set only, so the
coinbase-created output with pair `(cb1.id, 0)` survives even though `c3Tx`
consumes that pair, while the sequential update removes it. -/
theorem processTransactions_not_sequential :
    processTransactions ecTrue [cb1, c3Tx] c3UTxO 1 =
      some [{ txOutId := cb1.id, txOutIndex := 0, address := genesisAddress, amount := 50 },
            { txOutId := c3Tx.id, txOutIndex := 0, address := genesisAddress, amount := 50 }] ∧
    updateUnspentTxOutsSpec [cb1, c3Tx] c3UTxO =
      [{ txOutId := c3Tx.id, txOutIndex := 0, address := genesisAddress, amount := 50 }] ∧
    ([{ txOutId := cb1.id, txOutIndex := 0, address := genesisAddress, amount := 50 },
      { txOutId := c3Tx.id, txOutIndex := 0, address := genesisAddress, amount := 50 }] :
        List UnspentTxOut) ≠
      [{ txOutId := c3Tx.id, txOutIndex := 0, address := genesisAddress, amount := 50 }] := by
  decide

/-- Auxiliary: `any` over a `flatMap` is an `any` of `any`s. -/
theorem any_flatMap {α β : Type} (l : List α) (f : α → List β) (p : β → Bool) :
    (l.flatMap f).any p = l.any (fun a => (f a).any p) := by
  induction l with
  | nil => rfl
  | cons a l ih => simp [List.flatMap_cons, List.any_append, ih]

/-- The global update of `updateUnspentTxOuts` agrees with the sequential
per-transaction update as long as no transaction's created output pair is
consumed by a LATER transaction of the same block. -/
theorem updateUnspentTxOuts_sequential (txs : List Transaction)
    (hsep : List.Pairwise
      (fun a b => ∀ x ∈ newOuts a, (consumedPairs b).any (fun c => pairMatchB c x) = false)
      txs) :
    ∀ u : List UnspentTxOut, updateUnspentTxOutsSpec txs u = updateUnspentTxOuts txs u := by
  induction txs with
  | nil =>
    intro u
    simp [updateUnspentTxOutsSpec, updateUnspentTxOuts]
  | cons t ts ih =>
    rcases List.pairwise_cons.mp hsep with ⟨hhead, htail⟩
    intro u
    have hnew : (newOuts t).filter
        (fun x => !((ts.flatMap consumedPairs).any (fun c => pairMatchB c x))) = newOuts t := by
      rw [List.filter_eq_self]
      intro x hx
      rw [Bool.not_eq_true']
      rw [any_flatMap, List.any_eq_false]
      intro b hb
      rw [hhead b hb x hx]
      simp
    have hfilter :
        (List.filter (fun x => !((consumedPairs t).any (fun c => pairMatchB c x))) u).filter
            (fun x => !((ts.flatMap consumedPairs).any (fun c => pairMatchB c x))) =
          u.filter (fun x => !(((t :: ts).flatMap consumedPairs).any (fun c => pairMatchB c x))) := by
      rw [List.filter_filter]
      apply List.filter_congr
      intro x _
      rw [List.flatMap_cons, List.any_append]
      cases h1 : (consumedPairs t).any (fun c => pairMatchB c x) <;>
        cases h2 : (ts.flatMap consumedPairs).any (fun c => pairMatchB c x) <;>
        simp [h1, h2]
    rw [updateUnspentTxOutsSpec, ih htail]
    unfold updateUnspentTxOuts
    rw [List.filter_append, hnew, hfilter]
    rw [show (t :: ts).flatMap newOuts = newOuts t ++ ts.flatMap newOuts from
      List.flatMap_cons ..]
    rw [List.append_assoc]

/-- Claim C3 (amended): when `processTransactions` succeeds its result is the
GLOBAL update — consumed pairs are removed from the incoming set only, then
every created output is appended — which coincides with the claim's
per-transaction sequential update whenever no transaction's created output
pair is consumed by a later transaction of the block (the failure case
leaves the UTxO set untouched). -/
theorem processTransactions_spec (ecV : EcVerify) (txs : List Transaction)
    (u : List UnspentTxOut) (blockIndex : Int) (r : List UnspentTxOut)
    (h : processTransactions ecV txs u blockIndex = some r)
    (hsep : List.Pairwise
      (fun a b => ∀ x ∈ newOuts a, (consumedPairs b).any (fun c => pairMatchB c x) = false)
      txs) :
    r = updateUnspentTxOuts txs u ∧ r = updateUnspentTxOutsSpec txs u := by
  have hr : r = updateUnspentTxOuts txs u := by
    unfold processTransactions at h
    split at h
    · cases h
    · injection h with h1
      exact h1.symm
  exact ⟨hr, hr.trans (updateUnspentTxOuts_sequential txs hsep u).symm⟩

/-- Witness for claim C3 (amended): a coinbase-only block processed over the
genesis UTxO set, where the global and sequential updates agree. -/
theorem processTransactions_spec_witness :
    ([{ txOutId := genesisTransaction.id, txOutIndex := 0, address := genesisAddress,
        amount := 50 },
      { txOutId := cb1.id, txOutIndex := 0, address := genesisAddress, amount := 50 }] :
        List UnspentTxOut) = updateUnspentTxOuts [cb1] initialUnspentTxOuts ∧
    ([{ txOutId := genesisTransaction.id, txOutIndex := 0, address := genesisAddress,
        amount := 50 },
      { txOutId := cb1.id, txOutIndex := 0, address := genesisAddress, amount := 50 }] :
        List UnspentTxOut) = updateUnspentTxOutsSpec [cb1] initialUnspentTxOuts :=
  processTransactions_spec ecTrue [cb1] initialUnspentTxOuts 1
    [{ txOutId := genesisTransaction.id, txOutIndex := 0, address := genesisAddress,
       amount := 50 },
     { txOutId := cb1.id, txOutIndex := 0, address := genesisAddress, amount := 50 }]
    (by decide) (by decide)

/-! ## Claim C5 — validateCoinbaseTx characterization -/

/-- Claim C5 (amended): `validateCoinbaseTx` returns true iff the id matches
the derivation, there is exactly one TxIn whose `txOutIndex` equals the
block index (its `txOutId` and `signature` are NOT constrained), and exactly
one TxOut whose amount is `COINBASE_AMOUNT = 50` (its address is not
constrained either, not even to be address-valid). -/
theorem validateCoinbaseTx_spec (t : Transaction) (blockIndex : Int) :
    validateCoinbaseTx (some t) blockIndex = true ↔
      (getTransactionId t = t.id ∧
       (∃ txIn, t.txIns = [txIn] ∧ txIn.txOutIndex = blockIndex) ∧
       (∃ txOut, t.txOuts = [txOut] ∧ txOut.amount = COINBASE_AMOUNT)) := by
  constructor
  · intro h
    simp only [validateCoinbaseTx] at h
    split at h
    · rename_i hbne
      cases h
    · rename_i hbne
      have hid : getTransactionId t = t.id := by
        simpa [bne_iff_ne] using hbne
      split at h
      · rename_i txIn hIns
        split at h
        · rename_i hbix
          cases h
        · rename_i hbix
          have hix : txIn.txOutIndex = blockIndex := by
            simpa [bne_iff_ne] using hbix
          split at h
          · rename_i txOut hOuts
            exact ⟨hid, ⟨txIn, hIns, hix⟩, ⟨txOut, hOuts, by simpa using h⟩⟩
          · rename_i hOuts
            cases h
      · rename_i hIns
        cases h
  · rintro ⟨hid, ⟨txIn, hIns, hix⟩, ⟨txOut, hOuts, hamt⟩⟩
    simp [validateCoinbaseTx, hid, hIns, hOuts, hix, hamt]

/-! ## Claim C6 (amended theorem and witness) -/

/-- Claim C6 (amended): when the last block's index N satisfies
N mod 10 = 0 and N ≠ 0 and the chain has a block at array position
`length − 10` (for a dense chain storing block i at position i, that is the
block of index N − 9, not N − 10), `getDifficulty` retargets from THAT
block: its difficulty + 1 when the elapsed seconds to the last block are
below 50, − 1 when above 200, unchanged otherwise; for every other last
index it returns the last block's difficulty. -/
theorem getDifficulty_spec :
    (∀ (chain : List Block) (last adj : Block),
      chain.getLast? = some last → last.index.tmod 10 = 0 → last.index ≠ 0 →
      jsIndex chain ((chain.length : Int) - 10) = some adj →
      getDifficulty chain = some
        (if (last.timestamp : ℚ) / 1000 - (adj.timestamp : ℚ) / 1000 < 50 then
          adj.difficulty + 1
         else if (last.timestamp : ℚ) / 1000 - (adj.timestamp : ℚ) / 1000 > 200 then
          adj.difficulty - 1
         else adj.difficulty)) ∧
    (∀ (chain : List Block) (last : Block),
      chain.getLast? = some last → ¬(last.index.tmod 10 = 0 ∧ last.index ≠ 0) →
      getDifficulty chain = some last.difficulty) := by
  constructor
  · intro chain last adj hlast hmod hne hadj
    simp only [getDifficulty, hlast]
    rw [if_pos (by simp [DIFFICULTY_ADJUSTMENT_INTERVAL, hmod, hne])]
    simp only [adjustDifficulty, DIFFICULTY_ADJUSTMENT_INTERVAL, BLOCK_GENERATION_INTERVAL, hadj]
    norm_num
    split_ifs <;> rfl
  · intro chain last hlast hn
    simp only [getDifficulty, hlast]
    rw [if_neg]
    simp only [DIFFICULTY_ADJUSTMENT_INTERVAL, Bool.and_eq_true, beq_iff_eq, bne_iff_ne, ne_eq]
    intro hcontra
    exact hn ⟨hcontra.1, hcontra.2⟩

def c6Last : Block :=
  { index := 10, timestamp := 210000, transactions := [], hash := "", previousHash := "",
    difficulty := 0, proof := 0 }

def c6Adj : Block :=
  { index := 1, timestamp := 200000, transactions := [], hash := "", previousHash := "",
    difficulty := 7, proof := 0 }

/-- Witness for claim C6 (amended): both branches instantiated — the
retarget on the dense 11-block chain, and the pass-through on a chain whose
last index is not a nonzero multiple of 10. -/
theorem getDifficulty_spec_witness :
    getDifficulty c6Chain = some
      (if (c6Last.timestamp : ℚ) / 1000 - (c6Adj.timestamp : ℚ) / 1000 < 50 then
        c6Adj.difficulty + 1
       else if (c6Last.timestamp : ℚ) / 1000 - (c6Adj.timestamp : ℚ) / 1000 > 200 then
        c6Adj.difficulty - 1
       else c6Adj.difficulty) ∧
    getDifficulty [c6Adj] = some 7 :=
  ⟨getDifficulty_spec.1 c6Chain c6Last c6Adj (by decide) (by decide) (by decide) (by decide),
   getDifficulty_spec.2 [c6Adj] c6Adj (by decide) (by decide)⟩

/-! ## Claim C7 — mempool admission -/

/-- Claim C7: `addToTransactionPool` appends the transaction to the pool iff
`validateTransaction` succeeds and no transaction already in the pool has an
input with the same `(txOutId, txOutIndex)` pair as any input of the new
transaction; otherwise it raises an error (modelled `none`) and the pool is
unchanged. -/
theorem addToTransactionPool_spec (ecV : EcVerify) (t : Transaction)
    (u : List UnspentTxOut) (pool : List Transaction) :
    (addToTransactionPool ecV t u pool = some (pool ++ [t]) ↔
      (validateTransaction ecV t u = true ∧
        ∀ i ∈ t.txIns, ∀ p ∈ pool, ∀ q ∈ p.txIns,
          ¬(i.txOutId = q.txOutId ∧ i.txOutIndex = q.txOutIndex))) ∧
    (addToTransactionPool ecV t u pool = none ∨
      addToTransactionPool ecV t u pool = some (pool ++ [t])) := by
  have hpool : isValidTxForPool t pool = true ↔
      (∀ i ∈ t.txIns, ∀ p ∈ pool, ∀ q ∈ p.txIns,
        ¬(i.txOutId = q.txOutId ∧ i.txOutIndex = q.txOutIndex)) := by
    unfold isValidTxForPool getTxPoolIns
    rw [List.all_eq_true]
    constructor
    · intro h i hi p hp q hq hcontra
      have hmem : q ∈ pool.flatMap (fun t => t.txIns) := List.mem_flatMap.mpr ⟨p, hp, hq⟩
      have hi' := h i hi
      rw [Bool.not_eq_true', List.any_eq_false] at hi'
      apply hi' q hmem
      rw [hcontra.1, hcontra.2]
      simp
    · intro h i hi
      rw [Bool.not_eq_true', List.any_eq_false]
      intro q hq'
      rcases List.mem_flatMap.mp hq' with ⟨p, hp, hq⟩
      intro hcontra
      rw [Bool.and_eq_true, beq_iff_eq, beq_iff_eq] at hcontra
      exact h i hi p hp q hq ⟨hcontra.2, hcontra.1⟩
  unfold addToTransactionPool
  split
  · rename_i hcond
    have hv : validateTransaction ecV t u = false := by simpa using hcond
    constructor
    · constructor
      · intro h
        simp at h
      · rintro ⟨hv', -⟩
        rw [hv'] at hv
        cases hv
    · left
      rfl
  · rename_i hcond
    split
    · rename_i hcond2
      have hp : isValidTxForPool t pool = false := by simpa using hcond2
      constructor
      · constructor
        · intro h
          simp at h
        · rintro ⟨-, hforall⟩
          have := hpool.mpr hforall
          rw [this] at hp
          cases hp
      · left
        rfl
    · rename_i hcond2
      have hv : validateTransaction ecV t u = true := by
        revert hcond
        cases validateTransaction ecV t u <;> simp
      have hp : isValidTxForPool t pool = true := by
        revert hcond2
        cases isValidTxForPool t pool <;> simp
      constructor
      · constructor
        · intro _
          exact ⟨hv, hpool.mp hp⟩
        · intro _
          rfl
      · right
        rfl

/-! ## Claim C8 — wallet transaction creation -/

def pubConstA : String → String := fun _ => "A"

def signConst : String → String → String := fun _ _ => "S"

/-- A UTxO set with two entries sharing the pair `("t", 0)` but held by
different addresses; the sender owns only the second one. -/
def c8DupPairUTxOs : List UnspentTxOut :=
  [{ txOutId := "t", txOutIndex := 0, address := "B", amount := 10 },
   { txOutId := "t", txOutIndex := 0, address := "A", amount := 10 }]

/-- Counterexample for claim C8: the sender's selectable UTxOs cover the
requested amount (10 ≤ 10), so by the claim `createTransaction` should
return a transaction, but it throws the invalid-private-key error instead:
`signTxIn` re-resolves each selected input by its pair in the FULL UTxO set
and the first pair-match belongs to address "B", not the sender's "A". -/
theorem createTransaction_signing_mismatch :
    createTransaction pubConstA signConst "R" 10 "k" [] c8DupPairUTxOs =
      .error "Trying to sign an input with an invalid private key." ∧
    (10 : Int) ≤
      ((filterTxPoolTxs (c8DupPairUTxOs.filter (fun x => x.address == pubConstA "k")) []).map
        (fun x => x.amount)).sum := by
  decide

theorem getElem?_of_drop_cons {α : Type} {l : List α} {i : Nat} {x : α} {rest : List α}
    (h : l.drop i = x :: rest) : l[i]? = some x := by
  induction i generalizing l with
  | zero =>
    rw [List.drop_zero] at h
    subst h
    simp
  | succ n ih =>
    cases l with
    | nil => simp at h
    | cons a as =>
      rw [List.drop_succ_cons] at h
      simpa using ih h

theorem drop_succ_of_drop_cons {α : Type} {l : List α} {i : Nat} {x : α} {rest : List α}
    (h : l.drop i = x :: rest) : l.drop (i + 1) = rest := by
  induction i generalizing l with
  | zero =>
    rw [List.drop_zero] at h
    subst h
    rfl
  | succ n ih =>
    cases l with
    | nil => simp at h
    | cons a as =>
      rw [List.drop_succ_cons] at h
      rw [List.drop_succ_cons]
      exact ih h

/-- Everything the greedy selection returns comes from the accumulator or
the traversed list. -/
theorem findTxOutsGo_mem (amount : Int) :
    ∀ (l acc : List UnspentTxOut) (cur : Int) (inc : List UnspentTxOut) (left : Int),
      findTxOutsGo amount cur acc l = .ok (inc, left) → ∀ x ∈ inc, x ∈ acc ∨ x ∈ l := by
  intro l
  induction l with
  | nil =>
    intro acc cur inc left h
    cases h
  | cons a rest ih =>
    intro acc cur inc left h
    rw [findTxOutsGo] at h
    split at h
    · injection h with h1
      injection h1 with h2 h3
      subst h2
      intro x hx
      rcases List.mem_append.mp hx with hxa | hxa
      · exact Or.inl hxa
      · simp at hxa
        subst hxa
        exact Or.inr (List.mem_cons_self x rest)
    · intro x hx
      rcases ih (acc ++ [a]) (cur + a.amount) inc left h x hx with hxa | hxa
      · rcases List.mem_append.mp hxa with hxb | hxb
        · exact Or.inl hxb
        · simp at hxb
          subst hxb
          exact Or.inr (List.mem_cons_self x rest)
      · exact Or.inr (List.mem_cons_of_mem a hxa)

/-- Over a UTxO set with pairwise-distinct `(txOutId, txOutIndex)` pairs,
the first pair-match of a member is that member itself. -/
theorem find?_pair_of_pairwise (u : List UnspentTxOut)
    (hdist : List.Pairwise
      (fun a b => ¬(a.txOutId = b.txOutId ∧ a.txOutIndex = b.txOutIndex)) u)
    (x : UnspentTxOut) (hx : x ∈ u) :
    u.find? (fun y => (y.txOutId == x.txOutId) && (y.txOutIndex == x.txOutIndex)) = some x := by
  induction u with
  | nil => cases hx
  | cons a rest ih =>
    rcases List.pairwise_cons.mp hdist with ⟨ha, htail⟩
    rcases List.mem_cons.mp hx with rfl | hxr
    · apply List.find?_cons_of_pos
      simp
    · rw [List.find?_cons_of_neg, ih htail hxr]
      intro hcontra
      rw [Bool.and_eq_true, beq_iff_eq, beq_iff_eq] at hcontra
      exact ha x hxr ⟨hcontra.1, hcontra.2⟩

/-- When every input of the transaction resolves (by pair) to a UTxO held by
the signer's address, the signing pass succeeds and sets every signature to
the signature of the transaction id. -/
theorem signTxInsFrom_ok (pf : String → String) (es : String → String → String)
    (t : Transaction) (priv : String) (u : List UnspentTxOut)
    (hfind : ∀ txIn ∈ t.txIns, ∃ r,
      u.find? (fun y => (y.txOutId == txIn.txOutId) && (y.txOutIndex == txIn.txOutIndex)) =
        some r ∧ pf priv = r.address) :
    ∀ (l : List TxIn) (i : Nat), t.txIns.drop i = l →
      signTxInsFrom pf es t priv u i l =
        .ok (l.map (fun txIn => { txIn with signature := es priv t.id })) := by
  intro l
  induction l with
  | nil =>
    intro i _
    rfl
  | cons x rest ih =>
    intro i hdrop
    have hget : t.txIns[i]? = some x := getElem?_of_drop_cons hdrop
    have hx : x ∈ t.txIns := by
      have : x ∈ t.txIns.drop i := by
        rw [hdrop]
        exact List.mem_cons_self x rest
      exact List.drop_subset i t.txIns this
    rcases hfind x hx with ⟨r, hfindr, haddr⟩
    have hsig : signTxIn pf es t i priv u = .ok (es priv t.id) := by
      simp only [signTxIn, hget, hfindr]
      rw [if_neg]
      simp [haddr]
    rw [signTxInsFrom, hsig, ih (i + 1) (drop_succ_of_drop_cons hdrop)]
    rfl

/-- The transaction `createTransaction` produces from the greedily selected
UTxOs: unsigned inputs determine the id, then every input carries the
signature of that id. -/
def c8SignedTx (es : String → String → String) (priv receiver own : String)
    (amount leftOver : Int) (included : List UnspentTxOut) : Transaction :=
  let base : Transaction :=
    { id := "",
      txIns := included.map (fun x =>
        { txOutId := x.txOutId, txOutIndex := x.txOutIndex, signature := "" }),
      txOuts := createTxOuts receiver own amount leftOver }
  { id := getTransactionId base,
    txIns := included.map (fun x =>
      { txOutId := x.txOutId, txOutIndex := x.txOutIndex,
        signature := es priv (getTransactionId base) }),
    txOuts := createTxOuts receiver own amount leftOver }

/-- Claim C8 (amended): over a UTxO set whose `(txOutId, txOutIndex)` pairs
are pairwise distinct (so that the signing pass re-resolves each selected
input to the selected UTxO itself), `createTransaction` selects the sender's
own UTxOs minus those already consumed by the pool, greedily in iteration
order; when the greedy selection fails it throws the insufficient-funds
error, and otherwise it returns the transaction with outputs
`[{receiver, amount}]` plus a change output exactly when the leftover is
nonzero, inputs referencing the selected UTxOs, and every input signed over
the id derived from the unsigned transaction. -/
theorem createTransaction_spec (pf : String → String) (es : String → String → String)
    (receiver : String) (amount : Int) (priv : String) (pool : List Transaction)
    (u : List UnspentTxOut)
    (hdist : List.Pairwise
      (fun a b => ¬(a.txOutId = b.txOutId ∧ a.txOutIndex = b.txOutIndex)) u) :
    createTransaction pf es receiver amount priv pool u =
      match findTxOutsForAmount amount
          (filterTxPoolTxs (u.filter (fun x => x.address == pf priv)) pool) with
      | .error e => .error e
      | .ok (included, leftOver) =>
          .ok (c8SignedTx es priv receiver (pf priv) amount leftOver included) := by
  simp only [createTransaction]
  cases hfind : findTxOutsForAmount amount
      (filterTxPoolTxs (u.filter (fun x => x.address == pf priv)) pool) with
  | error e => rfl
  | ok p =>
    obtain ⟨included, leftOver⟩ := p
    have hmem : ∀ x ∈ included,
        x ∈ filterTxPoolTxs (u.filter (fun y => y.address == pf priv)) pool := by
      intro x hx
      rcases findTxOutsGo_mem amount _ [] 0 included leftOver hfind x hx with h | h
      · cases h
      · exact h
    have hsign : ∀ txIn ∈ (included.map (fun x =>
          ({ txOutId := x.txOutId, txOutIndex := x.txOutIndex, signature := "" } : TxIn))), ∃ r,
        u.find? (fun y => (y.txOutId == txIn.txOutId) && (y.txOutIndex == txIn.txOutIndex)) =
          some r ∧ pf priv = r.address := by
      intro txIn htxIn
      rcases List.mem_map.mp htxIn with ⟨x, hxinc, rfl⟩
      have hxsel := hmem x hxinc
      have hxu : x ∈ u.filter (fun y => y.address == pf priv) := by
        simp only [filterTxPoolTxs] at hxsel
        exact (List.mem_filter.mp hxsel).1
      rcases List.mem_filter.mp hxu with ⟨hxu', haddr⟩
      refine ⟨x, find?_pair_of_pairwise u hdist x hxu', ?_⟩
      exact (beq_iff_eq.mp haddr).symm
    show (match
        signTxInsFrom pf es
          { id := getTransactionId
              { id := "",
                txIns := included.map (fun x =>
                  { txOutId := x.txOutId, txOutIndex := x.txOutIndex, signature := "" }),
                txOuts := createTxOuts receiver (pf priv) amount leftOver },
            txIns := included.map (fun x =>
              { txOutId := x.txOutId, txOutIndex := x.txOutIndex, signature := "" }),
            txOuts := createTxOuts receiver (pf priv) amount leftOver }
          priv u 0
          (included.map (fun x =>
            { txOutId := x.txOutId, txOutIndex := x.txOutIndex, signature := "" })) with
      | Except.error e => Except.error e
      | Except.ok signed =>
          Except.ok
            { id := getTransactionId
                { id := "",
                  txIns := included.map (fun x =>
                    { txOutId := x.txOutId, txOutIndex := x.txOutIndex, signature := "" }),
                  txOuts := createTxOuts receiver (pf priv) amount leftOver },
              txIns := signed,
              txOuts := createTxOuts receiver (pf priv) amount leftOver }) =
      Except.ok (c8SignedTx es priv receiver (pf priv) amount leftOver included)
    rw [signTxInsFrom_ok pf es
      { id := getTransactionId
          { id := "",
            txIns := included.map (fun x =>
              { txOutId := x.txOutId, txOutIndex := x.txOutIndex, signature := "" }),
            txOuts := createTxOuts receiver (pf priv) amount leftOver },
        txIns := included.map (fun x =>
          { txOutId := x.txOutId, txOutIndex := x.txOutIndex, signature := "" }),
        txOuts := createTxOuts receiver (pf priv) amount leftOver }
      priv u hsign
      (included.map (fun x =>
        { txOutId := x.txOutId, txOutIndex := x.txOutIndex, signature := "" }))
      0 (by rw [List.drop_zero])]
    simp only [List.map_map]
    rfl

def c8WitnessUTxOs : List UnspentTxOut :=
  [{ txOutId := "t1", txOutIndex := 0, address := "A", amount := 30 },
   { txOutId := "t2", txOutIndex := 1, address := "A", amount := 40 }]

/-- Witness for claim C8 (amended): a concrete successful run — amount 50
out of UTxOs of 30 and 40, yielding a change output of 20 and signed
inputs. -/
theorem createTransaction_spec_witness :
    createTransaction pubConstA signConst "R" 50 "k" [] c8WitnessUTxOs =
      match findTxOutsForAmount 50
          (filterTxPoolTxs (c8WitnessUTxOs.filter
            (fun x => x.address == pubConstA "k")) []) with
      | .error e => .error e
      | .ok (included, leftOver) =>
          .ok (c8SignedTx signConst "k" "R" (pubConstA "k") 50 leftOver included) :=
  createTransaction_spec pubConstA signConst "R" 50 "k" [] c8WitnessUTxOs (by decide)
